import Mathlib

/-!
Shallow embedding of the access-control and audited-mutation core of
`src/app.py` (warehouse order dashboard).

Modelling conventions:
* Timestamps on the token side are `Nat` (seconds since epoch); `datetime.utcnow()`
  is an explicit `now` parameter.  Order-side timestamps are opaque strings,
  exactly as the code writes preformatted ISO strings into the CSV cells.
* A store file that may be missing is `Option (List row)`; `none` models
  `os.path.exists(...) = False`.
* `datetime.fromisoformat(row["expires_at"].replace("Z", ""))` either yields a
  timestamp or raises; the parse outcome is modelled as the row field
  `expires_at : Option Nat`, `none` standing for an unparsable cell.  The
  `try/except` of `verify_token` that turns any such exception into `None`
  becomes the `none` branch of the embedding.
* `secrets.token_hex(4)` is a nondeterministic source, passed in as an
  explicit argument to `create_token`.
* Python dataframe mutation plus `save_orders` / `append_log` becomes explicit
  state passing on `AppState`.
-/

namespace WarehouseApp

/-- Row of `tokens/tokens.csv` with columns
`token, role, company, email, expires_at, created_at`.  The `expires_at`
field holds the result of parsing the timestamp cell; `none` models a cell
on which `datetime.fromisoformat` raises. -/
structure TokenRow where
  token : String
  role : String
  company : String
  email : String
  expires_at : Option Nat
  created_at : Nat
  deriving Repr, DecidableEq

/-- Result dictionary of `verify_token`: `{"role": ..., "company": ..., "email": ...}`. -/
structure TokenInfo where
  role : String
  company : String
  email : String
  deriving Repr, DecidableEq

/-- Dictionary built from a token row at app.py line 90. -/
def row_info (r : TokenRow) : TokenInfo :=
  ⟨r.role, r.company, r.email⟩

/-- Loop body of `verify_token` (app.py lines 86-93): scan the rows in file
order; on a row whose `token` cell equals the presented code, parse its
expiry — an unparsable cell raises, which the surrounding `except` turns into
`None` for the whole call; an unexpired match returns its info dict; an
expired match falls through to the next row. -/
def verifyRows (now : Nat) (tok : String) : List TokenRow → Option TokenInfo
  | [] => none
  | r :: rest =>
    if r.token == tok then
      match r.expires_at with
      | none => none
      | some e => if now ≤ e then some (row_info r) else verifyRows now tok rest
    else verifyRows now tok rest

/-- Embedding of `verify_token` (app.py lines 80-93): an empty code or a
missing tokens file yields `None`; otherwise the store is scanned by
`verifyRows`. -/
def verify_token (now : Nat) (store : Option (List TokenRow)) (tok : String) :
    Option TokenInfo :=
  if tok = "" then none
  else
    match store with
    | none => none
    | some rows => verifyRows now tok rows

/-- Rows of the tokens file, treating a missing file as empty (what
`ensure_tokens_file` produces before the first issuance). -/
def store_rows (store : Option (List TokenRow)) : List TokenRow :=
  match store with
  | none => []
  | some rows => rows

/-- Embedding of `create_token` (app.py lines 71-78): `tok` stands for the
value returned by `secrets.token_hex(4)`; the row is appended to the store
(`ensure_tokens_file` first materialises a missing file as empty).  The
written `expires_at` cell is `expires_at.isoformat() + "Z"`, which
`verify_token` always parses back successfully, hence `some expires_at`. -/
def create_token (tok role company email : String) (expires_at created : Nat)
    (store : Option (List TokenRow)) : String × List TokenRow :=
  (tok, store_rows store ++ [⟨tok, role, company, email, some expires_at, created⟩])

/-- Access mode resolved by the block at app.py lines 118-136:
`mode = "owner"`, `mode = "client"` with `client_role`, or no access
(`st.stop()`). -/
inductive Mode where
  | owner : Mode
  | client (role : String) : Mode
  | noAccess : Mode
  deriving Repr, DecidableEq

/-- Embedding of the access-control block (app.py lines 118-136):
`admin_key == OWNER_KEY` grants owner; otherwise a truthy `token` query
parameter is verified and, on success, grants the role stored in the token;
otherwise no access.  `adminKey`/`tokenQ` are `st.query_params.get`
results (`none` = absent parameter). -/
def resolve_access (ownerKey : String) (adminKey tokenQ : Option String)
    (now : Nat) (store : Option (List TokenRow)) : Mode :=
  if adminKey = some ownerKey then Mode.owner
  else
    match tokenQ with
    | some t =>
      if t = "" then Mode.noAccess
      else
        match verify_token now store t with
        | some info => Mode.client info.role
        | none => Mode.noAccess
    | none => Mode.noAccess

/-- Embedding of `disable_update = (mode == "client" and client_role == "viewer")`
(app.py line 171): the only viewer gate in the program, applied to the
submit button of the update form. -/
def disable_update (m : Mode) : Bool :=
  match m with
  | Mode.client role => role == "viewer"
  | _ => false

/-- Label written into `UpdatedBy` and the log `User` column:
`"owner" if mode == "owner" else client_role` (app.py lines 184 and 189).
The `noAccess` case is unreachable in the program (`st.stop()` halts first). -/
def actor_label (m : Mode) : String :=
  match m with
  | Mode.owner => "owner"
  | Mode.client role => role
  | Mode.noAccess => ""

/-- Row of `data/orders.csv`.  Named fields mirror the columns the handler
touches or the spec names; `extra` carries any further externally-imported
columns, which `save_orders` writes back untouched. -/
structure OrderRow where
  orderID : String
  warehouse : String
  status : String
  invoiceNo : String
  orderDate : String
  updatedBy : String
  updatedAt : String
  extra : List (String × String)
  deriving Repr, DecidableEq

/-- Row of `data/log.csv` with the `append_log` field list (app.py lines 43-46). -/
structure AuditRecord where
  timestamp : String
  user : String
  warehouse : String
  orderID : String
  fromStatus : String
  toStatus : String
  fromInvoice : String
  toInvoice : String
  deriving Repr, DecidableEq

/-- Mutable state of the order subsystem: the orders dataframe (persisted by
`save_orders`) and the audit log file (extended by `append_log`). -/
structure AppState where
  orders : List OrderRow
  log : List AuditRecord
  deriving Repr, DecidableEq

/-- Row of `data/lookups.csv` with columns `Type, Value`; `ltype` models the
`Type` column (`Type` itself is reserved in Lean). -/
structure LookupRow where
  ltype : String
  value : String
  deriving Repr, DecidableEq

/-- Status vocabulary: `lk[lk["Type"] == "Status"]["Value"].tolist()`
(app.py line 149). -/
def statuses (lk : List LookupRow) : List String :=
  (lk.filter (fun r => r.ltype == "Status")).map (fun r => r.value)

/-- Field writes of app.py lines 182-185 on the targeted row: set `Status`,
`InvoiceNo`, `UpdatedBy`, `UpdatedAt`; every other cell of the row is left
as is. -/
def apply_update (r : OrderRow) (ns ni actor now : String) : OrderRow :=
  ⟨r.orderID, r.warehouse, ns, ni, r.orderDate, actor, now, r.extra⟩

/-- Locate the first row whose `OrderID` equals `oid`
(`idx = df.index[df["OrderID"] == order_id]; i0 = idx[0]`), apply the field
writes to it, and return the written-back row list together with the
pre-update row (whose `Status`/`InvoiceNo` the handler reads as
`old_status`/`old_invoice` before mutating).  `none` models the empty-index
case (`len(idx) == 0`). -/
def updateRows (oid ns ni actor now : String) :
    List OrderRow → Option (List OrderRow × OrderRow)
  | [] => none
  | r :: rest =>
    if r.orderID == oid then some (apply_update r ns ni actor now :: rest, r)
    else
      match updateRows oid ns ni actor now rest with
      | none => none
      | some (rest2, old) => some (r :: rest2, old)

/-- Errors surfaced by the update handler.  The code's only error path is
`st.error("Order not found.")` at app.py line 177. -/
inductive UpdateError where
  | OrderNotFound : UpdateError
  deriving Repr, DecidableEq

/-- Embedding of the update handler (app.py lines 174-197): find the row,
on failure report `Order not found.` leaving both stores untouched; on
success write the four fields back via `save_orders` and append exactly one
audit row via `append_log`.  The handler performs no role check and no
status-vocabulary check.  `now` is the preformatted
`datetime.utcnow().isoformat(timespec="seconds") + "Z"` string (the handler
calls it twice, for `UpdatedAt` and for the log `Timestamp`; both calls are
modelled by the same parameter). -/
def update_handler (actor wh oid ns ni now : String) (st : AppState) :
    AppState × Except UpdateError AuditRecord :=
  match updateRows oid ns ni actor now st.orders with
  | none => (st, Except.error UpdateError.OrderNotFound)
  | some (orders2, old) =>
    let rec0 : AuditRecord := ⟨now, actor, wh, oid, old.status, ns, old.invoiceNo, ni⟩
    (⟨orders2, st.log ++ [rec0]⟩, Except.ok rec0)

/-- Matching predicate of the amended C3 statement: the row bears the
presented code and is unexpired at `now`. -/
def token_matches (tok : String) (now : Nat) (r : TokenRow) : Bool :=
  r.token == tok && (match r.expires_at with
    | some e => decide (now ≤ e)
    | none => false)

/-- Concrete order used by the counterexample-style evaluations. -/
def ord1 : OrderRow :=
  ⟨"ORD-001", "WH1", "Open", "", "2025-01-01", "importer", "2025-01-01T00:00:00Z",
    [("Qty", "5")]⟩

/-- Concrete one-order state used by the counterexample-style evaluations. -/
def demo_state : AppState :=
  ⟨[ord1], []⟩

/-- Concrete lookup table: status vocabulary is `["Open", "Invoiced"]`. -/
def demo_lookups : List LookupRow :=
  [⟨"Status", "Open"⟩, ⟨"Status", "Invoiced"⟩, ⟨"Warehouse", "WH1"⟩]

/-- Concrete audit record produced by a successful concrete update. -/
def demo_rec : AuditRecord :=
  ⟨"T1", "owner", "WH1", "ORD-001", "Open", "Invoiced", "", "INV-100"⟩

/-- Concrete state after the successful concrete update. -/
def demo_state2 : AppState :=
  ⟨[apply_update ord1 "Invoiced" "INV-100" "owner" "T1"], [demo_rec]⟩

/-- Concrete token row: code `ab`, role viewer, expiry 10. -/
def tokA : TokenRow :=
  ⟨"ab", "viewer", "C1", "e1", some 10, 0⟩

/-- Concrete token row: same code `ab`, role editor, expiry 100. -/
def tokB : TokenRow :=
  ⟨"ab", "editor", "C2", "e2", some 100, 0⟩

theorem verifyRows_some_mem (now : Nat) (tok : String) (rows : List TokenRow)
    (info : TokenInfo) (h : verifyRows now tok rows = some info) :
    ∃ r ∈ rows, r.token = tok ∧ ∃ e, r.expires_at = some e ∧ now ≤ e ∧ info = row_info r := by
  induction rows with
  | nil => simp [verifyRows] at h
  | cons r rest ih =>
    unfold verifyRows at h
    by_cases hm : (r.token == tok) = true
    · rw [if_pos hm] at h
      cases hexp : r.expires_at with
      | none => exact Option.noConfusion (by simpa only [hexp] using h)
      | some e =>
        simp only [hexp] at h
        by_cases hle : now ≤ e
        · rw [if_pos hle] at h
          exact ⟨r, List.mem_cons_self r rest, eq_of_beq hm, e, hexp, hle,
            (Option.some_inj.mp h).symm⟩
        · rw [if_neg hle] at h
          obtain ⟨r2, hmem, hrest⟩ := ih h
          exact ⟨r2, List.mem_cons_of_mem r hmem, hrest⟩
    · rw [if_neg hm] at h
      obtain ⟨r2, hmem, hrest⟩ := ih h
      exact ⟨r2, List.mem_cons_of_mem r hmem, hrest⟩

theorem verify_token_some (now : Nat) (store : Option (List TokenRow)) (tok : String)
    (info : TokenInfo) (h : verify_token now store tok = some info) :
    tok ≠ "" ∧ ∃ rows, store = some rows ∧
      ∃ r ∈ rows, r.token = tok ∧ ∃ e, r.expires_at = some e ∧ now ≤ e ∧ info = row_info r := by
  unfold verify_token at h
  by_cases h0 : tok = ""
  · rw [if_pos h0] at h; exact absurd h (by simp)
  · rw [if_neg h0] at h
    cases store with
    | none => exact absurd h (by simp)
    | some rows => exact ⟨h0, rows, rfl, verifyRows_some_mem now tok rows info h⟩

theorem verifyRows_append_fresh (now : Nat) (tok : String) (rows : List TokenRow)
    (nr : TokenRow) (hfresh : ∀ r ∈ rows, r.token ≠ tok)
    (htok : nr.token = tok) (e : Nat) (he : nr.expires_at = some e) (hle : now ≤ e) :
    verifyRows now tok (rows ++ [nr]) = some (row_info nr) := by
  induction rows with
  | nil => simp [verifyRows, htok, he, hle]
  | cons r rest ih =>
    have hr : (r.token == tok) = false := by
      simp [hfresh r (List.mem_cons_self r rest)]
    simp only [List.cons_append, verifyRows, hr, if_false, Bool.false_eq_true]
    exact ih (fun r2 hr2 => hfresh r2 (List.mem_cons_of_mem r hr2))

theorem verifyRows_eq_find (now : Nat) (tok : String) (rows : List TokenRow)
    (hparse : ∀ r ∈ rows, r.token = tok → (r.expires_at).isSome = true) :
    verifyRows now tok rows
      = Option.map row_info (List.find? (token_matches tok now) rows) := by
  induction rows with
  | nil => rfl
  | cons r rest ih =>
    have ih2 := ih (fun r2 h2 ht => hparse r2 (List.mem_cons_of_mem r h2) ht)
    cases hm : r.token == tok with
    | true =>
      have htok : r.token = tok := eq_of_beq hm
      obtain ⟨e, he⟩ :=
        Option.isSome_iff_exists.mp (hparse r (List.mem_cons_self r rest) htok)
      by_cases hle : now ≤ e
      · have hp : token_matches tok now r = true := by
          simp [token_matches, hm, he, hle]
        rw [List.find?_cons_of_pos _ hp]
        simp [verifyRows, hm, he, hle]
      · have hp : ¬ token_matches tok now r = true := by
          simp [token_matches, he, hle]
        rw [List.find?_cons_of_neg _ hp]
        simp only [verifyRows, hm, if_true, he]
        rw [if_neg hle]
        exact ih2
    | false =>
      have hp : ¬ token_matches tok now r = true := by
        simp [token_matches, hm]
      rw [List.find?_cons_of_neg _ hp]
      simp only [verifyRows, hm, Bool.false_eq_true, if_false]
      exact ih2

/-- C8: token verification never raises: every failure mode of
`verify_token` — empty code, missing tokens file, malformed rows whose
expiry cell does not parse, expired rows — yields `none` (access denied),
and any `some` result is backed by a genuine store row that carries the
presented code and is unexpired at the query time.  In the embedding the
`try/except` of app.py lines 84-92 is the `none`-valued branches, so the
function is total by construction. -/
theorem C8_fail_closed (now : Nat) (store : Option (List TokenRow)) (tok : String) :
    verify_token now store tok = none
    ∨ ∃ rows r e, store = some rows ∧ r ∈ rows ∧ r.token = tok
        ∧ r.expires_at = some e ∧ now ≤ e
        ∧ verify_token now store tok = some (row_info r) := by
  cases hv : verify_token now store tok with
  | none => exact Or.inl rfl
  | some info =>
    obtain ⟨hne, rows, hst, r, hmem, htok, e, he, hle, hinfo⟩ :=
      verify_token_some now store tok info hv
    exact Or.inr ⟨rows, r, e, hst, hmem, htok, he, hle, by rw [hinfo]⟩

/-- C2: credential resolution (app.py lines 118-136).  An admin key equal to
the owner secret grants owner, taking precedence over any token; any
mismatch — including an absent or empty admin parameter — never yields
owner; otherwise a presented token code that verifies grants exactly the
role stored in the token; otherwise no access.  When every store row
carries role `editor` or `viewer` (as issuance guarantees), the outcome is
exactly one of owner, editor-client, viewer-client, no access. -/
theorem C2_resolution (ownerKey : String) (adminKey tokenQ : Option String)
    (now : Nat) (store : Option (List TokenRow)) :
    (adminKey = some ownerKey →
        resolve_access ownerKey adminKey tokenQ now store = Mode.owner)
    ∧ (adminKey ≠ some ownerKey →
        resolve_access ownerKey adminKey tokenQ now store ≠ Mode.owner)
    ∧ (∀ t info, adminKey ≠ some ownerKey → tokenQ = some t →
        verify_token now store t = some info →
        resolve_access ownerKey adminKey tokenQ now store = Mode.client info.role)
    ∧ (adminKey ≠ some ownerKey →
        (∀ t, tokenQ = some t → verify_token now store t = none) →
        resolve_access ownerKey adminKey tokenQ now store = Mode.noAccess)
    ∧ ((∀ rows, store = some rows → ∀ r ∈ rows, r.role = "editor" ∨ r.role = "viewer") →
        (resolve_access ownerKey adminKey tokenQ now store = Mode.owner
         ∨ resolve_access ownerKey adminKey tokenQ now store = Mode.client "editor"
         ∨ resolve_access ownerKey adminKey tokenQ now store = Mode.client "viewer"
         ∨ resolve_access ownerKey adminKey tokenQ now store = Mode.noAccess)) := by
  refine ⟨fun h => by simp [resolve_access, h], ?_, ?_, ?_, ?_⟩
  · intro h
    cases tokenQ with
    | none => simp [resolve_access, h]
    | some t =>
      by_cases ht : t = ""
      · simp [resolve_access, h, ht]
      · cases hv : verify_token now store t with
        | none => simp [resolve_access, h, ht, hv]
        | some info => simp [resolve_access, h, ht, hv]
  · intro t info h hq hv
    have hne : t ≠ "" := (verify_token_some now store t info hv).1
    subst hq
    simp [resolve_access, h, hne, hv]
  · intro h hv
    cases tokenQ with
    | none => simp [resolve_access, h]
    | some t =>
      by_cases ht : t = ""
      · simp [resolve_access, h, ht]
      · simp [resolve_access, h, ht, hv t rfl]
  · intro hroles
    by_cases h : adminKey = some ownerKey
    · exact Or.inl (by simp [resolve_access, h])
    · cases hq : tokenQ with
      | none => exact Or.inr (Or.inr (Or.inr (by simp [resolve_access, h])))
      | some t =>
        by_cases ht : t = ""
        · exact Or.inr (Or.inr (Or.inr (by simp [resolve_access, h, ht])))
        · cases hv : verify_token now store t with
          | none => exact Or.inr (Or.inr (Or.inr (by simp [resolve_access, h, ht, hv])))
          | some info =>
            obtain ⟨hne, rows, hst, r, hmem, htok, e, he, hle, hinfo⟩ :=
              verify_token_some now store t info hv
            have hres : resolve_access ownerKey adminKey (some t) now store
                = Mode.client info.role := by
              simp [resolve_access, h, ht, hv]
            cases hroles rows hst r hmem with
            | inl hre =>
              refine Or.inr (Or.inl ?_)
              rw [hres, hinfo]
              simp [row_info, hre]
            | inr hrv =>
              refine Or.inr (Or.inr (Or.inl ?_))
              rw [hres, hinfo]
              simp [row_info, hrv]

/-- C2 witness at a concrete input: wrong admin key plus a valid editor
token resolves to an editor client. -/
theorem C2_witness :
    resolve_access "admin12345" (some "wrong") (some "ab") 5 (some [tokB])
      = Mode.client "editor" :=
  (C2_resolution "admin12345" (some "wrong") (some "ab") 5 (some [tokB])).2.2.1
    "ab" ⟨"editor", "C2", "e2"⟩ (by decide) rfl (by decide)

/-- C4: issuance/verification round trip.  A token issued by `create_token`
with a fresh code (modelling the high-probability freshness of
`secrets.token_hex`), a nonempty code, and a positive duration verifies
immediately after issuance to exactly the issued role and scope. -/
theorem C4_issue_then_verify (tok role company email : String) (now dur : Nat)
    (store : Option (List TokenRow))
    (hne : tok ≠ "") (_hdur : 0 < dur)
    (hfresh : ∀ r ∈ store_rows store, r.token ≠ tok) :
    verify_token now
      (some (create_token tok role company email (now + dur) now store).2)
      (create_token tok role company email (now + dur) now store).1
      = some ⟨role, company, email⟩ := by
  unfold create_token
  simp only [verify_token, if_neg hne]
  exact verifyRows_append_fresh now tok (store_rows store)
    ⟨tok, role, company, email, some (now + dur), now⟩ hfresh rfl (now + dur) rfl
    (Nat.le_add_right now dur)

/-- C4 witness at a concrete input: issue an editor token over a one-row
store and verify it at issuance time. -/
theorem C4_witness :
    verify_token 100
      (some (create_token "ab12" "editor" "Co" "e@x" (100 + 3600) 100 (some [tokA])).2)
      (create_token "ab12" "editor" "Co" "e@x" (100 + 3600) 100 (some [tokA])).1
      = some ⟨"editor", "Co", "e@x"⟩ :=
  C4_issue_then_verify "ab12" "editor" "Co" "e@x" 100 3600 (some [tokA])
    (by decide) (by decide) (by decide)

/-- C3 counterexample: with two store rows sharing the code `ab` — the first
expired at 10, the second expiring at 100 — verification at time 50 does not
stop at the first matching row and return nothing, as the claim states; it
skips the expired first match and returns the second row's role and scope.
This also refutes the claim's corollary for the first row: 50 is strictly
after its expiry, yet verification of its code returns a result. -/
theorem C3_counterexample :
    List.find? (fun r => r.token == "ab") [tokA, tokB] = some tokA
    ∧ tokA.expires_at = some 10 ∧ 10 < 50
    ∧ verify_token 50 (some [tokA, tokB]) "ab" = some ⟨"editor", "C2", "e2"⟩
    ∧ verify_token 50 (some [tokA, tokB]) "ab" ≠ none := by
  refine ⟨by decide, by decide, by decide, by decide, by decide⟩

/-- C3 (amended): verification returns the role and scope of the first store
row whose token equals the presented code and whose expiry is at or after
the current time, skipping earlier expired matches rather than halting; if
no matching row is unexpired it returns nothing — in particular, at any time
strictly after the expiry of every row carrying the code, verification
returns nothing.  Stated for a nonempty code over a store whose matching
rows have parseable expiry cells (an unparsable cell aborts the call with
nothing, see C8). -/
theorem C3_first_unexpired (now : Nat) (tok : String) (rows : List TokenRow)
    (hne : tok ≠ "")
    (hparse : ∀ r ∈ rows, r.token = tok → (r.expires_at).isSome = true) :
    verify_token now (some rows) tok
        = Option.map row_info (List.find? (token_matches tok now) rows)
    ∧ ((∀ r ∈ rows, r.token = tok → ∀ e, r.expires_at = some e → e < now) →
        verify_token now (some rows) tok = none) := by
  have h1 : verify_token now (some rows) tok
      = Option.map row_info (List.find? (token_matches tok now) rows) := by
    simp only [verify_token, if_neg hne]
    exact verifyRows_eq_find now tok rows hparse
  refine ⟨h1, fun hexpired => ?_⟩
  rw [h1]
  have hnone : List.find? (token_matches tok now) rows = none := by
    rw [List.find?_eq_none]
    intro r hr hp
    unfold token_matches at hp
    rw [Bool.and_eq_true] at hp
    obtain ⟨hm, hexp⟩ := hp
    have htok : r.token = tok := eq_of_beq hm
    cases he : r.expires_at with
    | none =>
      simp only [he] at hexp
      exact Bool.noConfusion hexp
    | some e =>
      simp only [he] at hexp
      have hle : now ≤ e := of_decide_eq_true hexp
      exact absurd (hexpired r hr htok e he) (by omega)
  rw [hnone]
  rfl

/-- C3 witness at a concrete input: the sole row carrying code `ab` expired
at 10, so verification at 50 returns nothing. -/
theorem C3_witness : verify_token 50 (some [tokA]) "ab" = none :=
  (C3_first_unexpired 50 "ab" [tokA] (by decide) (by decide)).2
    (by
      intro r hr htok e he
      have hra : r = tokA := by simpa using hr
      subst hra
      have he10 : e = 10 := by simpa [tokA] using he.symm
      omega)

theorem updateRows_eq_some (oid ns ni actor now : String) (rows rows2 : List OrderRow)
    (old : OrderRow) (h : updateRows oid ns ni actor now rows = some (rows2, old)) :
    ∃ pre post, rows = pre ++ old :: post
      ∧ (∀ r ∈ pre, (r.orderID == oid) = false)
      ∧ (old.orderID == oid) = true
      ∧ rows2 = pre ++ apply_update old ns ni actor now :: post := by
  induction rows generalizing rows2 with
  | nil => exact Option.noConfusion h
  | cons r rest ih =>
    unfold updateRows at h
    cases hm : r.orderID == oid with
    | true =>
      rw [if_pos hm] at h
      simp only [Option.some_inj, Prod.mk.injEq] at h
      obtain ⟨h1, h2⟩ := h
      subst h2
      exact ⟨[], rest, rfl, by simp, hm, h1.symm⟩
    | false =>
      rw [if_neg (by simp [hm])] at h
      cases hrec : updateRows oid ns ni actor now rest with
      | none =>
        simp only [hrec] at h
        exact Option.noConfusion h
      | some p =>
        obtain ⟨rest2, old2⟩ := p
        simp only [hrec, Option.some_inj, Prod.mk.injEq] at h
        obtain ⟨h1, h2⟩ := h
        subst h2
        obtain ⟨pre, post, hdec, hpre, hold, hrows⟩ := ih rest2 hrec
        refine ⟨r :: pre, post, by rw [hdec]; rfl, ?_, hold, ?_⟩
        · intro r2 hr2
          cases List.mem_cons.mp hr2 with
          | inl he => rw [he]; exact hm
          | inr hmem => exact hpre r2 hmem
        · rw [← h1, hrows]
          rfl

theorem updateRows_of_decomp (oid ns ni actor now : String) (pre post : List OrderRow)
    (old : OrderRow) (hpre : ∀ r ∈ pre, (r.orderID == oid) = false)
    (hold : (old.orderID == oid) = true) :
    updateRows oid ns ni actor now (pre ++ old :: post)
      = some (pre ++ apply_update old ns ni actor now :: post, old) := by
  induction pre with
  | nil => simp [updateRows, hold]
  | cons r rest ih =>
    have hm : (r.orderID == oid) = false := hpre r (List.mem_cons_self r rest)
    simp only [List.cons_append, updateRows, hm, Bool.false_eq_true, if_false,
      List.append_eq]
    rw [ih (fun r2 h2 => hpre r2 (List.mem_cons_of_mem r h2))]

theorem updateRows_eq_none (oid ns ni actor now : String) (rows : List OrderRow)
    (h : ∀ r ∈ rows, (r.orderID == oid) = false) :
    updateRows oid ns ni actor now rows = none := by
  induction rows with
  | nil => rfl
  | cons r rest ih =>
    have hm := h r (List.mem_cons_self r rest)
    simp only [updateRows, hm, Bool.false_eq_true, if_false]
    rw [ih (fun r2 h2 => h r2 (List.mem_cons_of_mem r h2))]

/-- C7: an update whose `orderId` has no row in the Order Store reports
`Order not found.`, appends no audit record, and returns both stores
exactly as they were. -/
theorem C7_order_not_found (actor wh oid ns ni now : String) (st : AppState)
    (h : ∀ r ∈ st.orders, (r.orderID == oid) = false) :
    update_handler actor wh oid ns ni now st
      = (st, Except.error UpdateError.OrderNotFound) := by
  unfold update_handler
  rw [updateRows_eq_none oid ns ni actor now st.orders h]

/-- C7 witness at a concrete input: updating the absent order `ORD-404`
leaves the one-order demo state untouched and reports the error. -/
theorem C7_witness :
    update_handler "owner" "WH1" "ORD-404" "Invoiced" "INV-1" "T1" demo_state
      = (demo_state, Except.error UpdateError.OrderNotFound) :=
  C7_order_not_found "owner" "WH1" "ORD-404" "Invoiced" "INV-1" "T1" demo_state
    (by decide)

/-- C5: every successful update appends exactly one audit record, whose
from-values are the targeted row's status and invoice read before the write
and whose to-values are the requested ones, and the written-back row holds
the requested status and invoice. -/
theorem C5_success_audit (actor wh oid ns ni now : String) (st st2 : AppState)
    (rec0 : AuditRecord)
    (h : update_handler actor wh oid ns ni now st = (st2, Except.ok rec0)) :
    st2.log = st.log ++ [rec0]
    ∧ ∃ pre old post, st.orders = pre ++ old :: post ∧ old.orderID = oid
      ∧ rec0 = ⟨now, actor, wh, oid, old.status, ns, old.invoiceNo, ni⟩
      ∧ st2.orders = pre ++ apply_update old ns ni actor now :: post
      ∧ (apply_update old ns ni actor now).status = ns
      ∧ (apply_update old ns ni actor now).invoiceNo = ni := by
  unfold update_handler at h
  cases hrec : updateRows oid ns ni actor now st.orders with
  | none =>
    simp only [hrec] at h
    simp at h
  | some p =>
    obtain ⟨orders2, old⟩ := p
    simp only [hrec, Prod.mk.injEq, Except.ok.injEq] at h
    obtain ⟨h1, h2⟩ := h
    subst h2
    subst h1
    obtain ⟨pre, post, hdec, hpre, hold, hrows⟩ :=
      updateRows_eq_some oid ns ni actor now st.orders orders2 old hrec
    exact ⟨rfl, pre, old, post, hdec, eq_of_beq hold, rfl, hrows, rfl, rfl⟩

/-- C5 witness at a concrete input: the successful concrete update appends
exactly `demo_rec` and rewrites the row to the requested values. -/
theorem C5_witness :
    demo_state2.log = demo_state.log ++ [demo_rec]
    ∧ ∃ pre old post, demo_state.orders = pre ++ old :: post ∧ old.orderID = "ORD-001"
      ∧ demo_rec = ⟨"T1", "owner", "WH1", "ORD-001", old.status, "Invoiced",
          old.invoiceNo, "INV-100"⟩
      ∧ demo_state2.orders = pre ++ apply_update old "Invoiced" "INV-100" "owner" "T1" :: post
      ∧ (apply_update old "Invoiced" "INV-100" "owner" "T1").status = "Invoiced"
      ∧ (apply_update old "Invoiced" "INV-100" "owner" "T1").invoiceNo = "INV-100" :=
  C5_success_audit "owner" "WH1" "ORD-001" "Invoiced" "INV-100" "T1" demo_state
    demo_state2 demo_rec rfl

/-- C10: frame property of a successful update: the rows before and after
the targeted row are written back verbatim, and on the targeted row only
`Status`, `InvoiceNo`, `UpdatedBy`, `UpdatedAt` change — `OrderID`,
`Warehouse`, `OrderDate` and every externally-imported extra column are
preserved. -/
theorem C10_update_frame (actor wh oid ns ni now : String) (st st2 : AppState)
    (rec0 : AuditRecord)
    (h : update_handler actor wh oid ns ni now st = (st2, Except.ok rec0)) :
    ∃ pre old post, st.orders = pre ++ old :: post
      ∧ (∀ r ∈ pre, (r.orderID == oid) = false)
      ∧ st2.orders = pre ++ apply_update old ns ni actor now :: post
      ∧ (apply_update old ns ni actor now).orderID = old.orderID
      ∧ (apply_update old ns ni actor now).warehouse = old.warehouse
      ∧ (apply_update old ns ni actor now).orderDate = old.orderDate
      ∧ (apply_update old ns ni actor now).extra = old.extra
      ∧ (apply_update old ns ni actor now).status = ns
      ∧ (apply_update old ns ni actor now).invoiceNo = ni
      ∧ (apply_update old ns ni actor now).updatedBy = actor
      ∧ (apply_update old ns ni actor now).updatedAt = now := by
  unfold update_handler at h
  cases hrec : updateRows oid ns ni actor now st.orders with
  | none =>
    simp only [hrec] at h
    simp at h
  | some p =>
    obtain ⟨orders2, old⟩ := p
    simp only [hrec, Prod.mk.injEq, Except.ok.injEq] at h
    obtain ⟨h1, h2⟩ := h
    subst h2
    subst h1
    obtain ⟨pre, post, hdec, hpre, hold, hrows⟩ :=
      updateRows_eq_some oid ns ni actor now st.orders orders2 old hrec
    exact ⟨pre, old, post, hdec, hpre, hrows, rfl, rfl, rfl, rfl, rfl, rfl, rfl, rfl⟩

/-- C10 witness at a concrete input: the concrete update preserves the
imported `Qty` column and every untouched field of the targeted row. -/
theorem C10_witness :
    ∃ pre old post, demo_state.orders = pre ++ old :: post
      ∧ (∀ r ∈ pre, (r.orderID == "ORD-001") = false)
      ∧ demo_state2.orders = pre ++ apply_update old "Invoiced" "INV-100" "owner" "T1" :: post
      ∧ (apply_update old "Invoiced" "INV-100" "owner" "T1").orderID = old.orderID
      ∧ (apply_update old "Invoiced" "INV-100" "owner" "T1").warehouse = old.warehouse
      ∧ (apply_update old "Invoiced" "INV-100" "owner" "T1").orderDate = old.orderDate
      ∧ (apply_update old "Invoiced" "INV-100" "owner" "T1").extra = old.extra
      ∧ (apply_update old "Invoiced" "INV-100" "owner" "T1").status = "Invoiced"
      ∧ (apply_update old "Invoiced" "INV-100" "owner" "T1").invoiceNo = "INV-100"
      ∧ (apply_update old "Invoiced" "INV-100" "owner" "T1").updatedBy = "owner"
      ∧ (apply_update old "Invoiced" "INV-100" "owner" "T1").updatedAt = "T1" :=
  C10_update_frame "owner" "WH1" "ORD-001" "Invoiced" "INV-100" "T1" demo_state
    demo_state2 demo_rec rfl

/-- C9: repeating a successful update with identical new values succeeds
again, the second audit record's from-values equal the first record's
to-values (and its own from/to pairs coincide), the resulting Order Store
equals the store a single call at the second timestamp would have produced,
and with equal timestamps the second call leaves the store exactly as the
first left it; the audit log holds the two records in order. -/
theorem C9_repeat_update (actor wh oid ns ni t1 t2 : String) (st st1 : AppState)
    (rec1 : AuditRecord)
    (h : update_handler actor wh oid ns ni t1 st = (st1, Except.ok rec1)) :
    ∃ st2 rec2, update_handler actor wh oid ns ni t2 st1 = (st2, Except.ok rec2)
      ∧ rec2.fromStatus = rec1.toStatus ∧ rec2.fromInvoice = rec1.toInvoice
      ∧ rec2.fromStatus = rec2.toStatus ∧ rec2.fromInvoice = rec2.toInvoice
      ∧ st2.orders = (update_handler actor wh oid ns ni t2 st).1.orders
      ∧ st2.log = st.log ++ [rec1, rec2]
      ∧ (t2 = t1 → st2.orders = st1.orders) := by
  unfold update_handler at h
  cases hrec : updateRows oid ns ni actor t1 st.orders with
  | none =>
    simp only [hrec] at h
    simp at h
  | some p =>
    obtain ⟨orders2, old⟩ := p
    simp only [hrec, Prod.mk.injEq, Except.ok.injEq] at h
    obtain ⟨h1, h2⟩ := h
    subst h2
    subst h1
    obtain ⟨pre, post, hdec, hpre, hold, hrows⟩ :=
      updateRows_eq_some oid ns ni actor t1 st.orders orders2 old hrec
    subst hrows
    have hold2 : ((apply_update old ns ni actor t1).orderID == oid) = true := hold
    have hsecond :=
      updateRows_of_decomp oid ns ni actor t2 pre post
        (apply_update old ns ni actor t1) hpre hold2
    have hfirst2 := updateRows_of_decomp oid ns ni actor t2 pre post old hpre hold
    refine ⟨⟨pre ++ apply_update old ns ni actor t2 :: post,
        (st.log ++ [⟨t1, actor, wh, oid, old.status, ns, old.invoiceNo, ni⟩])
          ++ [⟨t2, actor, wh, oid, ns, ns, ni, ni⟩]⟩,
      ⟨t2, actor, wh, oid, ns, ns, ni, ni⟩, ?_, rfl, rfl, rfl, rfl, ?_, ?_, ?_⟩
    · show update_handler actor wh oid ns ni t2
        ⟨pre ++ apply_update old ns ni actor t1 :: post,
          st.log ++ [⟨t1, actor, wh, oid, old.status, ns, old.invoiceNo, ni⟩]⟩ = _
      unfold update_handler
      simp only [hsecond]
      rfl
    · show pre ++ apply_update old ns ni actor t2 :: post
        = (update_handler actor wh oid ns ni t2 st).1.orders
      unfold update_handler
      rw [hdec]
      simp only [hfirst2]
    · simp
    · intro ht
      subst ht
      rfl

/-- C9 witness at a concrete input: repeating the concrete successful update
at a second timestamp `T2`. -/
theorem C9_witness :
    ∃ st2 rec2,
      update_handler "owner" "WH1" "ORD-001" "Invoiced" "INV-100" "T2" demo_state2
        = (st2, Except.ok rec2)
      ∧ rec2.fromStatus = demo_rec.toStatus ∧ rec2.fromInvoice = demo_rec.toInvoice
      ∧ rec2.fromStatus = rec2.toStatus ∧ rec2.fromInvoice = rec2.toInvoice
      ∧ st2.orders
          = (update_handler "owner" "WH1" "ORD-001" "Invoiced" "INV-100" "T2" demo_state).1.orders
      ∧ st2.log = demo_state.log ++ [demo_rec, rec2]
      ∧ ("T2" = "T1" → st2.orders = demo_state2.orders) :=
  C9_repeat_update "owner" "WH1" "ORD-001" "Invoiced" "INV-100" "T1" "T2" demo_state
    demo_state2 demo_rec rfl

/-- C1: the viewer refusal is not enforced inside the update transaction.
The only gate is the UI flag `disable_update`, which is indeed set for a
viewer client; the handler itself, invoked with the viewer actor label,
performs the update, mutates the Order Store, and appends an audit record
attributed to `viewer` — it has no `PermissionDenied` path at all.  This
evaluates the code at the claim's failing input. -/
theorem C1_viewer_update_goes_through :
    disable_update (Mode.client "viewer") = true
    ∧ (update_handler (actor_label (Mode.client "viewer")) "WH1" "ORD-001" "Invoiced"
        "INV-9" "T1" demo_state).2
        = Except.ok ⟨"T1", "viewer", "WH1", "ORD-001", "Open", "Invoiced", "", "INV-9"⟩
    ∧ (update_handler (actor_label (Mode.client "viewer")) "WH1" "ORD-001" "Invoiced"
        "INV-9" "T1" demo_state).1 ≠ demo_state := by
  refine ⟨rfl, rfl, ?_⟩
  intro hcontra
  exact absurd (congrArg AppState.orders hcontra) (by decide)

/-- C6: the update transaction performs no status-vocabulary check.  Over
the demo lookup table the vocabulary is `["Open", "Invoiced"]` and
`Backordered` is not in it, yet the handler invoked with `Backordered`
succeeds, writes the out-of-vocabulary status into the Order Store and logs
it — there is no `InvalidStatus` error path.  This evaluates the code at
the claim's failing input. -/
theorem C6_invalid_status_goes_through :
    statuses demo_lookups = ["Open", "Invoiced"]
    ∧ "Backordered" ∉ statuses demo_lookups
    ∧ (update_handler "owner" "WH1" "ORD-001" "Backordered" "" "T1" demo_state).2
        = Except.ok ⟨"T1", "owner", "WH1", "ORD-001", "Open", "Backordered", "", ""⟩
    ∧ (update_handler "owner" "WH1" "ORD-001" "Backordered" "" "T1" demo_state).1
        ≠ demo_state := by
  refine ⟨rfl, by decide, rfl, ?_⟩
  intro hcontra
  exact absurd (congrArg AppState.orders hcontra) (by decide)

end WarehouseApp
